import Mathlib

/-!
Shallow embedding of `cloudformation-ecs-ssh-forwards` (src/index.js,
src/unnamed/part_000, src/cli.js).

The program resolves a running ECS service's network topology from
CloudFormation / ECS / EC2 metadata and prints SSH local-port-forwarding
commands.  JavaScript `Map` objects are embedded as insertion-ordered
association lists (`mapSet` updates in place, appends fresh keys);
JavaScript `undefined` for a possibly-absent value is `Option`; a thrown
`new Error(msg)` is `Err.thrown msg` and a runtime TypeError (property
access on `undefined`) is `Err.typeError`; JavaScript truthiness of
strings and numbers is modelled explicitly where the source relies on it.
-/

/-- Failure outcomes of the pipeline: `thrown msg` models `throw new
Error(msg)`; `typeError` models a JavaScript runtime TypeError raised by a
property access on `undefined`. -/
inductive Err where
  | thrown (msg : String)
  | typeError
deriving DecidableEq, Repr

/-- `Except.isOk` as a Boolean, to state "the run does not fail". -/
def exceptIsOk {α : Type} : Except Err α → Bool
  | .ok _ => true
  | .error _ => false

/-- JavaScript truthiness of an optional string (`undefined` and `""` are
falsy). -/
def jsTruthyStr : Option String → Bool
  | some s => !(s == "")
  | none => false

/-- JavaScript `Map.prototype.get`: first matching key, `undefined` when
absent. -/
def mapGet {α β : Type} [DecidableEq α] : List (α × β) → α → Option β
  | [], _ => none
  | (k', v') :: rest, k => if k' = k then some v' else mapGet rest k

/-- JavaScript `Map.prototype.set`: update an existing key in place
(keeping its position) or append a fresh key at the end. -/
def mapSet {α β : Type} [DecidableEq α] : List (α × β) → α → β → List (α × β)
  | [], k, v => [(k, v)]
  | (k', v') :: rest, k, v =>
      if k' = k then (k, v) :: rest else (k', v') :: mapSet rest k v

/-- `binding` element of `container.networkBindings`. -/
structure NetworkBinding where
  containerPort : Nat
  hostPort : Nat
deriving DecidableEq, Repr

/-- Element of `task.overrides.containerOverrides`. -/
structure ContainerOverride where
  name : String
deriving DecidableEq, Repr

/-- Element of `task.containers`; `networkBindings` is `none` when the
field is absent or not an array (`Array.isArray` fails). -/
structure Container where
  networkBindings : Option (List NetworkBinding)
deriving DecidableEq, Repr

/-- One task of the `ecs.describeTasks` response (the fields the program
reads). -/
structure TaskDetail where
  containerInstanceArn : String
  containers : List Container
  containerOverrides : List ContainerOverride
deriving DecidableEq, Repr

/-- Value stored in a host group's `byHostPort` map. -/
structure PortEntry where
  containerName : String
  containerPort : Nat
deriving DecidableEq, Repr

/-- The per-container-instance aggregate: `ports` maps containerPort to
hostPort, `byHostPort` maps hostPort to container identity. -/
structure HostGroup where
  ports : List (Nat × Nat)
  byHostPort : List (Nat × PortEntry)
deriving DecidableEq, Repr

/-- The binding filter `containerPorts && containerPorts.has(cp) ||
!containerPorts`: membership when a set was supplied, everything
otherwise. -/
def retainBinding : Option (List Nat) → Nat → Bool
  | some s, cp => s.contains cp
  | none, _ => true

/-- The body of the innermost aggregation loop: fetch (or freshly create)
the host group of `arn`, write `ports[cp] := hp` and
`byHostPort[hp] := {containerName, containerPort}`, store the group
back. -/
def addBinding (acc : List (String × HostGroup)) (arn : String)
    (name : String) (b : NetworkBinding) : List (String × HostGroup) :=
  let g := (mapGet acc arn).getD { ports := [], byHostPort := [] }
  mapSet acc arn
    { ports := mapSet g.ports b.containerPort b.hostPort,
      byHostPort := mapSet g.byHostPort b.hostPort
        { containerName := name, containerPort := b.containerPort } }

/-- Loop over one container's `networkBindings` (loop index `k`). -/
def processBindings (filter : Option (List Nat)) (arn : String)
    (name : String) (bs : List NetworkBinding)
    (acc : List (String × HostGroup)) : List (String × HostGroup) :=
  bs.foldl
    (fun acc b =>
      if retainBinding filter b.containerPort then addBinding acc arn name b
      else acc)
    acc

/-- Loop over one task's `containers` (loop index `j`): the container name
is read from `task.overrides.containerOverrides[j].name` before the
bindings check, so an out-of-range index is a TypeError even for a
container without bindings. -/
def processContainers (filter : Option (List Nat)) (arn : String)
    (ovs : List ContainerOverride) :
    List Container → Nat → List (String × HostGroup) →
      Except Err (List (String × HostGroup))
  | [], _, acc => .ok acc
  | c :: cs, j, acc =>
      match ovs[j]? with
      | none => .error .typeError
      | some ov =>
          let acc' :=
            match c.networkBindings with
            | some bs => processBindings filter arn ov.name bs acc
            | none => acc
          processContainers filter arn ovs cs (j + 1) acc'

/-- Process one task of the `describeTasks` response. -/
def processTask (filter : Option (List Nat))
    (acc : List (String × HostGroup)) (t : TaskDetail) :
    Except Err (List (String × HostGroup)) :=
  processContainers filter t.containerInstanceArn t.containerOverrides
    t.containers 0 acc

/-- The whole aggregation loop over `data.tasks`, producing the
`containerInstances` map. -/
def aggregateTasks (filter : Option (List Nat)) (tasks : List TaskDetail) :
    Except Err (List (String × HostGroup)) :=
  tasks.foldlM (processTask filter) []

/-! ### A flattened view of the aggregation

`aggregateTasks` is a triply nested loop writing into the map.  For
proofs we flatten it: the loop visits, in order, a list of retained
triples `(containerInstanceArn, containerName, binding)` and performs one
`addBinding` per triple.  The flattening performs exactly the same
positional `overrides.containerOverrides[j]` pairing (and fails with the
same TypeError at the same point). -/

/-- One retained binding occurrence: host arn, container name, binding. -/
abbrev BindingTriple := String × String × NetworkBinding

/-- The triples contributed by one container's binding list. -/
def containerTriples (filter : Option (List Nat)) (arn : String)
    (name : String) (bs : List NetworkBinding) : List BindingTriple :=
  (bs.filter (fun b => retainBinding filter b.containerPort)).map
    (fun b => (arn, name, b))

/-- The triples contributed by a task's container list starting at loop
index `j`. -/
def containersTriples (filter : Option (List Nat)) (arn : String)
    (ovs : List ContainerOverride) :
    List Container → Nat → Except Err (List BindingTriple)
  | [], _ => .ok []
  | c :: cs, j =>
      match ovs[j]? with
      | none => .error .typeError
      | some ov =>
          (containersTriples filter arn ovs cs (j + 1)).map
            (fun rest =>
              (match c.networkBindings with
               | some bs => containerTriples filter arn ov.name bs
               | none => []) ++ rest)

/-- The triples contributed by one task. -/
def taskTriples (filter : Option (List Nat)) (t : TaskDetail) :
    Except Err (List BindingTriple) :=
  containersTriples filter t.containerInstanceArn t.containerOverrides
    t.containers 0

/-- All retained triples of the whole `describeTasks` response, in visit
order. -/
def allTriples (filter : Option (List Nat)) :
    List TaskDetail → Except Err (List BindingTriple)
  | [] => .ok []
  | t :: ts => do
      let l₁ ← taskTriples filter t
      let l₂ ← allTriples filter ts
      pure (l₁ ++ l₂)

/-- One `addBinding` step, curried for folding over triples. -/
def tripleStep (acc : List (String × HostGroup)) (x : BindingTriple) :
    List (String × HostGroup) :=
  addBinding acc x.1 x.2.1 x.2.2

/-- Replay a triple list into the host-group map. -/
def buildGroups (l : List BindingTriple) : List (String × HostGroup) :=
  l.foldl tripleStep []

/-- The group stored for `arn`, an empty group when `arn` is absent. -/
def groupOf (acc : List (String × HostGroup)) (arn : String) : HostGroup :=
  (mapGet acc arn).getD { ports := [], byHostPort := [] }

/-- The (containerPort, hostPort) pairs of the triples targeting `arn`. -/
def hostPairs (arn : String) (l : List BindingTriple) : List (Nat × Nat) :=
  (l.filter (fun x => x.1 = arn)).map
    (fun x => (x.2.2.containerPort, x.2.2.hostPort))

/-! ### Container-instance and address resolution -/

/-- One element of the `ecs.describeContainerInstances` response. -/
structure CIDescription where
  containerInstanceArn : String
  ec2InstanceId : String
deriving DecidableEq, Repr

/-- `Ipv6Addresses` list element. -/
structure Ipv6Entry where
  ipv6Address : String
deriving DecidableEq, Repr

/-- `NetworkInterfaces` list element; the `Ipv6Addresses` field may be
absent. -/
structure NetworkInterface where
  ipv6Addresses : Option (List Ipv6Entry)
deriving DecidableEq, Repr

/-- One EC2 instance of the `describeInstances` response;
`PublicIpAddress` may be absent. -/
structure Ec2Instance where
  instanceId : String
  publicIpAddress : Option String
  networkInterfaces : List NetworkInterface
deriving DecidableEq, Repr

/-- One reservation group of the `describeInstances` response. -/
structure Reservation where
  instances : List Ec2Instance
deriving DecidableEq, Repr

/-- Set `containerInstances.get(arn).instanceId = id`: `none` when `arn`
is not a key of the map (the JS property write on `undefined` then throws
a TypeError). -/
def setInstanceId :
    List (String × HostGroup × Option String) → String → String →
      Option (List (String × HostGroup × Option String))
  | [], _, _ => none
  | (a, g, iid) :: rest, arn, ec2 =>
      if a = arn then some ((a, g, some ec2) :: rest)
      else (setInstanceId rest arn ec2).map (fun l => (a, g, iid) :: l)

/-- The loop over the `describeContainerInstances` response: each group
entry gains its `instanceId` property (initially `undefined`). -/
def attachInstanceIds (groups : List (String × HostGroup))
    (cis : List CIDescription) :
    Except Err (List (String × HostGroup × Option String)) :=
  cis.foldlM
    (fun acc ci =>
      match setInstanceId acc ci.containerInstanceArn ci.ec2InstanceId with
      | some l => .ok l
      | none => .error .typeError)
    (groups.map (fun p => (p.1, p.2, (none : Option String))))

/-- Per-instance address selection.  In IPv6 mode the source reads
`instance.NetworkInterfaces[0].Ipv6Addresses`: when there is no first
interface the property access on `undefined` is a TypeError; when the
list is absent or empty (`addrs && addrs[0]` falsy) it throws
"No IPv6 address"; otherwise the first address is taken.  In IPv4 mode
the possibly-absent `PublicIpAddress` is stored as-is. -/
def instanceAddr (ipv6 : Bool) (inst : Ec2Instance) :
    Except Err (Option String) :=
  if ipv6 then
    match inst.networkInterfaces[0]? with
    | none => .error .typeError
    | some ni =>
        match ni.ipv6Addresses with
        | some (a :: _) => .ok (some a.ipv6Address)
        | some [] => .error (.thrown "No IPv6 address")
        | none => .error (.thrown "No IPv6 address")
  else .ok inst.publicIpAddress

/-- The double loop over `data.Reservations` building the
`instanceIps` map. -/
def lookupAddresses (ipv6 : Bool) (rs : List Reservation) :
    Except Err (List (String × Option String)) :=
  rs.foldlM
    (fun acc r =>
      r.instances.foldlM
        (fun acc inst =>
          (instanceAddr ipv6 inst).map
            (fun a => mapSet acc inst.instanceId a))
        acc)
    []

/-! ### Command emission -/

/-- JavaScript string coercion of a possibly-`undefined` string value, as
performed by `+` concatenation (`undefined` renders as "undefined"). -/
def jsStr : Option String → String
  | some s => s
  | none => "undefined"

/-- `var port = startingPort || 49152`: `undefined` and `0` are falsy. -/
def jsPort : Option Nat → Nat
  | none => 49152
  | some n => if n == 0 then 49152 else n

/-- The `v.ports.forEach` loop: one ` -L<port>:localhost:<hostPort>`
clause per entry, incrementing the shared counter; returns the clause
string and the counter's final value. -/
def forwardClauses : List (Nat × Nat) → Nat → String × Nat
  | [], port => ("", port)
  | (_, hp) :: rest, port =>
      let (s, p') := forwardClauses rest (port + 1)
      (" -L" ++ toString port ++ ":localhost:" ++ toString hp ++ s, p')

/-- The assembled ssh line of one host group and the counter's final
value. -/
def sshLine (g : HostGroup) (ip : Option String) (port : Nat) :
    String × Nat :=
  let (cls, p') := forwardClauses g.ports port
  ("ssh" ++ cls ++ " ec2-user@" ++ jsStr ip, p')

/-- The `v.byHostPort.forEach` legend loop:
`<hostPort>\t<containerName>:<containerPort>` per entry. -/
def legendLines (g : HostGroup) : List String :=
  g.byHostPort.map
    (fun p => toString p.1 ++ "\t" ++ p.2.containerName ++ ":" ++
      toString p.2.containerPort)

/-- The final `containerInstances.forEach` loop: look the group's address
up through its (possibly unset) `instanceId`, print the ssh line, then
the legend lines, threading the shared port counter. -/
def emitEntries :
    List (String × HostGroup × Option String) →
      List (String × Option String) → Nat → List String
  | [], _, _ => []
  | (_, g, iid) :: rest, ips, port =>
      let ip := (iid.bind (fun i => mapGet ips i)).join
      let (line, p') := sshLine g ip port
      (line :: legendLines g) ++ emitEntries rest ips p'

/-- All printed lines of a run, starting from
`startingPort || 49152`. -/
def emitAll (entries : List (String × HostGroup × Option String))
    (ips : List (String × Option String)) (startingPort : Option Nat) :
    List String :=
  emitEntries entries ips (jsPort startingPort)

/-- The local forward ports consumed by one group's clause loop. -/
def clausePorts : List (Nat × Nat) → Nat → List Nat
  | [], _ => []
  | _ :: rest, port => port :: clausePorts rest (port + 1)

/-- The local forward ports of all `-L` clauses across the whole output,
in print order (threading the counter exactly as `emitEntries` does). -/
def emittedPorts :
    List (String × HostGroup × Option String) → Nat → List Nat
  | [], _ => []
  | (_, g, _) :: rest, port =>
      clausePorts g.ports port ++
        emittedPorts rest (forwardClauses g.ports port).2

/-- Total number of emitted `-L` clauses. -/
def totalClauses (entries : List (String × HostGroup × Option String)) :
    Nat :=
  (entries.map (fun e => e.2.1.ports.length)).sum

/-! ### Stack resolution and the whole pipeline

The control-plane responses are supplied by an environment of pure
response tables, one per API operation the program calls. -/

/-- Element of the `describeStackResources` response. -/
structure StackResource where
  logicalResourceId : String
  physicalResourceId : String
  resourceType : String
deriving DecidableEq, Repr

/-- Element of a stack's `Parameters` list. -/
structure StackParam where
  parameterKey : String
  parameterValue : String
deriving DecidableEq, Repr

/-- Element of the `describeStacks` response. -/
structure CfStack where
  parameters : List StackParam
deriving DecidableEq, Repr

/-- The control-plane responses, as pure functions of the request
parameters the program sends. -/
structure Env where
  describeStackResources : String → Option String → List StackResource
  describeStacks : String → List CfStack
  listTasks : String → String → List String
  describeTasks : String → List String → List TaskDetail
  describeContainerInstances : String → List String → List CIDescription
  describeInstances : List (Option String) → List Reservation

/-- First resource whose `ResourceType` is "AWS::ECS::Service". -/
def findServiceResource : List StackResource → Option String
  | [] => none
  | r :: rest =>
      if r.resourceType = "AWS::ECS::Service" then some r.physicalResourceId
      else findServiceResource rest

/-- `getServiceName`: query the service stack's resources (filtered by
`LogicalResourceId` only when a truthy logical name was given); with a
logical name an empty response is "Service not found" and otherwise the
first resource's physical id is returned; without one the first resource
of type "AWS::ECS::Service" is returned, else "Service not found". -/
def getServiceName (env : Env) (serviceStackName : String)
    (serviceName : Option String) : Except Err String :=
  let resources :=
    env.describeStackResources serviceStackName
      (if jsTruthyStr serviceName then serviceName else none)
  if jsTruthyStr serviceName then
    match resources with
    | [] => .error (.thrown "Service not found")
    | r :: _ => .ok r.physicalResourceId
  else
    match findServiceResource resources with
    | some p => .ok p
    | none => .error (.thrown "Service not found")

/-- First parameter whose `ParameterKey` is "ClusterStackName" (the loop
breaks at the first match). -/
def findClusterParam : List StackParam → Option String
  | [] => none
  | p :: rest =>
      if p.parameterKey = "ClusterStackName" then some p.parameterValue
      else findClusterParam rest

/-- `getClusterStackName`: empty `Stacks` is "Stack not found"; the first
stack's parameters are scanned for "ClusterStackName"; the final
`if (clusterStackName)` truthiness test makes the empty-string value fail
exactly like an absent parameter. -/
def getClusterStackName (env : Env) (serviceStackName : String) :
    Except Err String :=
  match env.describeStacks serviceStackName with
  | [] => .error (.thrown "Stack not found")
  | s :: _ =>
      match findClusterParam s.parameters with
      | some v =>
          if v = "" then .error (.thrown "Cluster stack parameter not found")
          else .ok v
      | none => .error (.thrown "Cluster stack parameter not found")

/-- `getClusterName`: resources of the cluster stack filtered by logical
id "cluster"; empty response is "Cluster stack not found". -/
def getClusterName (env : Env) (clusterStackName : String) :
    Except Err String :=
  match env.describeStackResources clusterStackName (some "cluster") with
  | [] => .error (.thrown "Cluster stack not found")
  | r :: _ => .ok r.physicalResourceId

/-- `clusterStackName && getClusterName(clusterStackName) ||
getClusterStackName(serviceStackName).then(getClusterName)`. -/
def resolveCluster (env : Env) (serviceStackName : String)
    (clusterStackName : Option String) : Except Err String :=
  if jsTruthyStr clusterStackName then
    getClusterName env (clusterStackName.getD "")
  else
    (getClusterStackName env serviceStackName).bind (getClusterName env)

/-- The exported main function: the full resolution pipeline, returning
the printed lines. -/
def runPipeline (env : Env) (serviceStackName : String)
    (serviceName clusterStackName : Option String)
    (containerPorts : Option (List Nat)) (ipv6 : Bool)
    (startingPort : Option Nat) : Except Err (List String) := do
  let sname ← getServiceName env serviceStackName serviceName
  let cname ← resolveCluster env serviceStackName clusterStackName
  let taskArns := env.listTasks cname sname
  let tasks := env.describeTasks cname taskArns
  let groups ← aggregateTasks containerPorts tasks
  let cis := env.describeContainerInstances cname (groups.map Prod.fst)
  let entries ← attachInstanceIds groups cis
  let instances := env.describeInstances (entries.map (fun e => e.2.2))
  let ips ← lookupAddresses ipv6 instances
  pure (emitAll entries ips startingPort)

/-! ### Concrete inputs used by individual claims -/

/-- The control-plane responses of the spec's worked example: stack
"svc-A" with one ECS-service resource and parameter
ClusterStackName="cluster-A"; cluster-A's logical resource "cluster" has
physical id "i-cluster-phys"; one task with one container ("web")
binding containerPort 80 to hostPort 32768 on host "ci-1", mapped to
instance "i-0001" with public IPv4 address "1.2.3.4". -/
def envC1 : Env where
  describeStackResources := fun stack logical =>
    if stack = "svc-A" then
      [{ logicalResourceId := "service", physicalResourceId := "svc-phys",
         resourceType := "AWS::ECS::Service" }]
    else if stack = "cluster-A" ∧ logical = some "cluster" then
      [{ logicalResourceId := "cluster",
         physicalResourceId := "i-cluster-phys",
         resourceType := "AWS::ECS::Cluster" }]
    else []
  describeStacks := fun stack =>
    if stack = "svc-A" then
      [{ parameters := [{ parameterKey := "ClusterStackName",
                          parameterValue := "cluster-A" }] }]
    else []
  listTasks := fun cluster svc =>
    if cluster = "i-cluster-phys" ∧ svc = "svc-phys" then ["task-1"] else []
  describeTasks := fun cluster arns =>
    if cluster = "i-cluster-phys" ∧ arns = ["task-1"] then
      [⟨"ci-1", [⟨some [⟨80, 32768⟩]⟩], [⟨"web"⟩]⟩]
    else []
  describeContainerInstances := fun _ arns =>
    if arns = ["ci-1"] then
      [{ containerInstanceArn := "ci-1", ec2InstanceId := "i-0001" }]
    else []
  describeInstances := fun ids =>
    if ids = [some "i-0001"] then
      [{ instances := [{ instanceId := "i-0001",
                         publicIpAddress := some "1.2.3.4",
                         networkInterfaces := [] }] }]
    else []

/-- Two same-containerPort bindings on one host ("h3"), exercising the
last-write-wins collision in the `ports` map. -/
def taskC3 : TaskDetail :=
  { containerInstanceArn := "h3",
    containers := [⟨some [⟨80, 100⟩, ⟨80, 200⟩]⟩],
    containerOverrides := [⟨"web"⟩] }

/-- The host group the aggregation builds for `taskC3`. -/
def grpC3 : HostGroup :=
  { ports := [(80, 200)],
    byHostPort := [(100, ⟨"web", 80⟩), (200, ⟨"web", 80⟩)] }

/-- A collision-free task: two bindings with distinct containerPorts and
distinct hostPorts on host "h3w". -/
def taskC3w : TaskDetail :=
  { containerInstanceArn := "h3w",
    containers := [⟨some [⟨80, 100⟩, ⟨443, 200⟩]⟩],
    containerOverrides := [⟨"web"⟩] }

/-- The retained triples of `taskC3w`. -/
def triplesC3w : List BindingTriple :=
  [("h3w", "web", ⟨80, 100⟩), ("h3w", "web", ⟨443, 200⟩)]

/-- The host group the aggregation builds for `taskC3w`. -/
def grpC3w : HostGroup :=
  { ports := [(80, 100), (443, 200)],
    byHostPort := [(100, ⟨"web", 80⟩), (200, ⟨"web", 443⟩)] }

/-- One task with two bindings, of which only containerPort 80 passes the
filter `{80}`. -/
def taskC4 : TaskDetail :=
  { containerInstanceArn := "h4",
    containers := [⟨some [⟨80, 32768⟩, ⟨9000, 40000⟩]⟩],
    containerOverrides := [⟨"app"⟩] }

/-- Aggregation result for `taskC4` under the filter `{80}`. -/
def resC4 : List (String × HostGroup) :=
  [("h4", { ports := [(80, 32768)],
            byHostPort := [(32768, ⟨"app", 80⟩)] })]

/-- A task whose `containerOverrides` list is longer than its `containers`
list: the aggregation succeeds without any length validation. -/
def taskC9 : TaskDetail :=
  { containerInstanceArn := "h9",
    containers := [⟨some [⟨80, 32768⟩]⟩],
    containerOverrides := [⟨"web"⟩, ⟨"extra"⟩] }

/-- Aggregation result for `taskC9`. -/
def resC9 : List (String × HostGroup) :=
  [("h9", { ports := [(80, 32768)],
            byHostPort := [(32768, ⟨"web", 80⟩)] })]

/-- One emitted host entry with two forward clauses. -/
def entriesC2 : List (String × HostGroup × Option String) :=
  [("h2", { ports := [(80, 32768), (443, 32769)],
            byHostPort := [(32768, ⟨"web", 80⟩), (32769, ⟨"web", 443⟩)] },
    some "i-2")]

/-- An instance whose first network interface exists but carries an empty
IPv6 address list. -/
def instC5a : Ec2Instance :=
  { instanceId := "i5", publicIpAddress := none,
    networkInterfaces := [⟨some []⟩] }

/-- An instance with no network interface at all. -/
def instC5b : Ec2Instance :=
  { instanceId := "i5b", publicIpAddress := none,
    networkInterfaces := [] }

/-- A reservation containing `instC5a`. -/
def resvC5 : Reservation := ⟨[instC5a]⟩

/-- A host group used to render an ssh line for an address-less
instance. -/
def grpC6 : HostGroup :=
  { ports := [(80, 32768)], byHostPort := [(32768, ⟨"web", 80⟩)] }

/-- Control-plane responses where resolution succeeds but the service has
no running tasks. -/
def envC7 : Env where
  describeStackResources := fun stack logical =>
    if stack = "s7" then
      [{ logicalResourceId := "svc", physicalResourceId := "svc7",
         resourceType := "AWS::ECS::Service" }]
    else if stack = "cs7" ∧ logical = some "cluster" then
      [{ logicalResourceId := "cluster", physicalResourceId := "c7",
         resourceType := "AWS::ECS::Cluster" }]
    else []
  describeStacks := fun stack =>
    if stack = "s7" then
      [{ parameters := [{ parameterKey := "ClusterStackName",
                          parameterValue := "cs7" }] }]
    else []
  listTasks := fun _ _ => []
  describeTasks := fun _ _ => []
  describeContainerInstances := fun _ _ => []
  describeInstances := fun _ => []

/-- Control-plane responses with one ECS-service resource in stack
"s8". -/
def envC8 : Env where
  describeStackResources := fun stack _ =>
    if stack = "s8" then
      [{ logicalResourceId := "other", physicalResourceId := "bucket8",
         resourceType := "AWS::S3::Bucket" },
       { logicalResourceId := "svc", physicalResourceId := "svc8-phys",
         resourceType := "AWS::ECS::Service" }]
    else []
  describeStacks := fun _ => []
  listTasks := fun _ _ => []
  describeTasks := fun _ _ => []
  describeContainerInstances := fun _ _ => []
  describeInstances := fun _ => []

/-- A stack whose `ClusterStackName` parameter is present but empty. -/
def stackC10 : CfStack :=
  { parameters := [{ parameterKey := "ClusterStackName",
                     parameterValue := "" }] }

/-- Control-plane responses where stack "s10" declares an empty
`ClusterStackName` parameter. -/
def envC10 : Env where
  describeStackResources := fun _ _ => []
  describeStacks := fun stack => if stack = "s10" then [stackC10] else []
  listTasks := fun _ _ => []
  describeTasks := fun _ _ => []
  describeContainerInstances := fun _ _ => []
  describeInstances := fun _ => []

/-! ### Association-map lemmas -/

theorem mapGet_mapSet_self {α β : Type} [DecidableEq α]
    (m : List (α × β)) (k : α) (v : β) :
    mapGet (mapSet m k v) k = some v := by
  induction m with
  | nil => simp [mapSet, mapGet]
  | cons p rest ih =>
      by_cases h : p.1 = k
      · simp [mapSet, mapGet, h]
      · simpa [mapSet, mapGet, h] using ih

theorem mapGet_mapSet_ne {α β : Type} [DecidableEq α]
    (m : List (α × β)) (k k' : α) (v : β) (h : k' ≠ k) :
    mapGet (mapSet m k v) k' = mapGet m k' := by
  have h' : ¬(k = k') := fun hh => h hh.symm
  induction m with
  | nil => simp [mapSet, mapGet, h']
  | cons p rest ih =>
      by_cases h1 : p.1 = k
      · simp [mapSet, mapGet, h1, h']
      · simp [mapSet, mapGet, h1]
        split <;> simp [ih]

theorem mapGet_isSome_mapSet {α β : Type} [DecidableEq α]
    (m : List (α × β)) (k k' : α) (v : β)
    (h : (mapGet m k').isSome = true) :
    (mapGet (mapSet m k v) k').isSome = true := by
  by_cases hk : k' = k
  · subst hk; simp [mapGet_mapSet_self]
  · rwa [mapGet_mapSet_ne m k k' v hk]

theorem mapSet_append_of_not_mem {α β : Type} [DecidableEq α]
    (m : List (α × β)) (k : α) (v : β)
    (h : ∀ p ∈ m, p.1 ≠ k) :
    mapSet m k v = m ++ [(k, v)] := by
  induction m with
  | nil => rfl
  | cons p rest ih =>
      have hp : p.1 ≠ k := h p (by simp)
      simp only [mapSet, if_neg hp, List.cons_append]
      rw [ih (fun q hq => h q (by simp [hq]))]

theorem mem_mapSet {α β : Type} [DecidableEq α]
    (m : List (α × β)) (k : α) (v : β) (x : α × β)
    (hx : x ∈ mapSet m k v) :
    x = (k, v) ∨ x ∈ m := by
  induction m with
  | nil => simp [mapSet] at hx; simp [hx]
  | cons p rest ih =>
      by_cases h1 : p.1 = k
      · simp only [mapSet, if_pos h1] at hx
        rcases List.mem_cons.mp hx with h | h
        · exact Or.inl h
        · exact Or.inr (List.mem_cons_of_mem _ h)
      · simp only [mapSet, if_neg h1] at hx
        rcases List.mem_cons.mp hx with h | h
        · exact Or.inr (h ▸ List.mem_cons_self _ _)
        · rcases ih h with h | h
          · exact Or.inl h
          · exact Or.inr (List.mem_cons_of_mem _ h)

/-! ### Linking the nested aggregation loops to the flattened view -/

theorem containerTriples_cons (filter : Option (List Nat)) (arn name : String)
    (b : NetworkBinding) (bs : List NetworkBinding) :
    containerTriples filter arn name (b :: bs) =
      (if retainBinding filter b.containerPort then [(arn, name, b)] else [])
        ++ containerTriples filter arn name bs := by
  by_cases h : retainBinding filter b.containerPort <;>
    simp [containerTriples, List.filter_cons, h]

theorem processBindings_eq (filter : Option (List Nat)) (arn name : String)
    (bs : List NetworkBinding) :
    ∀ acc, processBindings filter arn name bs acc =
      (containerTriples filter arn name bs).foldl tripleStep acc := by
  induction bs with
  | nil => intro acc; rfl
  | cons b bs ih =>
      intro acc
      rw [containerTriples_cons]
      by_cases h : retainBinding filter b.containerPort
      · simp only [if_pos h, List.singleton_append, List.foldl_cons]
        have : processBindings filter arn name (b :: bs) acc =
            processBindings filter arn name bs (addBinding acc arn name b) := by
          simp [processBindings, h]
        rw [this, ih]
        rfl
      · simp only [if_neg h, List.nil_append]
        have : processBindings filter arn name (b :: bs) acc =
            processBindings filter arn name bs acc := by
          simp [processBindings, h]
        rw [this, ih]

theorem processContainers_eq (filter : Option (List Nat)) (arn : String)
    (ovs : List ContainerOverride) (cs : List Container) :
    ∀ j acc, processContainers filter arn ovs cs j acc =
      (containersTriples filter arn ovs cs j).map
        (fun l => l.foldl tripleStep acc) := by
  induction cs with
  | nil => intro j acc; rfl
  | cons c cs ih =>
      intro j acc
      cases hov : ovs[j]? with
      | none => simp [processContainers, containersTriples, hov, Except.map]
      | some ov =>
          simp only [processContainers, containersTriples, hov]
          rw [ih]
          cases hr : containersTriples filter arn ovs cs (j + 1) with
          | error e => simp [Except.map]
          | ok rest =>
              simp only [Except.map, List.foldl_append]
              cases hnb : c.networkBindings with
              | none => simp
              | some bs => simp [processBindings_eq]

theorem foldlM_processTask_eq (filter : Option (List Nat))
    (tasks : List TaskDetail) :
    ∀ acc, tasks.foldlM (processTask filter) acc =
      (allTriples filter tasks).map (fun l => l.foldl tripleStep acc) := by
  induction tasks with
  | nil => intro acc; rfl
  | cons t ts ih =>
      intro acc
      have hstep : processTask filter acc t =
          (taskTriples filter t).map (fun l => l.foldl tripleStep acc) :=
        processContainers_eq _ _ _ _ 0 acc
      cases h1 : taskTriples filter t with
      | error e =>
          simp only [List.foldlM_cons, hstep, h1, allTriples, Except.map,
            Bind.bind, Except.bind]
      | ok l₁ =>
          simp only [List.foldlM_cons, hstep, h1, allTriples, Except.map,
            Bind.bind, Except.bind]
          cases h2 : allTriples filter ts with
          | error e =>
              have := ih (l₁.foldl tripleStep acc)
              simp only [h2, Except.map] at this
              simpa [Bind.bind, Except.bind] using this
          | ok l₂ =>
              have := ih (l₁.foldl tripleStep acc)
              simp only [h2, Except.map] at this
              simpa [Bind.bind, Except.bind, pure, Except.pure,
                List.foldl_append] using this

theorem aggregateTasks_eq (filter : Option (List Nat))
    (tasks : List TaskDetail) :
    aggregateTasks filter tasks =
      (allTriples filter tasks).map buildGroups :=
  foldlM_processTask_eq filter tasks []

/-! ### Provenance of final map entries -/

/-- Every entry of every group of `acc` originates in some triple of
`l`. -/
def ProvFrom (l : List BindingTriple)
    (acc : List (String × HostGroup)) : Prop :=
  ∀ arn g, mapGet acc arn = some g →
    (∀ p ∈ g.ports, ∃ x ∈ l, x.1 = arn ∧
      x.2.2.containerPort = p.1 ∧ x.2.2.hostPort = p.2) ∧
    (∀ q ∈ g.byHostPort, ∃ x ∈ l, x.1 = arn ∧
      x.2.1 = q.2.containerName ∧ x.2.2.containerPort = q.2.containerPort ∧
      x.2.2.hostPort = q.1)

theorem provFrom_step (l : List BindingTriple)
    (acc : List (String × HostGroup)) (x₀ : BindingTriple)
    (hx₀ : x₀ ∈ l) (h : ProvFrom l acc) :
    ProvFrom l (tripleStep acc x₀) := by
  intro arn g hg
  by_cases harn : arn = x₀.1
  · subst harn
    rw [tripleStep, addBinding, mapGet_mapSet_self] at hg
    cases hg
    constructor
    · intro p hp
      rcases mem_mapSet _ _ _ _ hp with h1 | h1
      · exact ⟨x₀, hx₀, rfl, by simp [h1], by simp [h1]⟩
      · cases hacc : mapGet acc x₀.1 with
        | none => rw [hacc] at h1; simp at h1
        | some g₁ =>
            rw [hacc] at h1
            exact (h x₀.1 g₁ hacc).1 p h1
    · intro q hq
      rcases mem_mapSet _ _ _ _ hq with h1 | h1
      · exact ⟨x₀, hx₀, rfl, by simp [h1], by simp [h1], by simp [h1]⟩
      · cases hacc : mapGet acc x₀.1 with
        | none => rw [hacc] at h1; simp at h1
        | some g₁ =>
            rw [hacc] at h1
            exact (h x₀.1 g₁ hacc).2 q h1
  · rw [tripleStep, addBinding, mapGet_mapSet_ne _ _ _ _ harn] at hg
    exact h arn g hg

theorem provFrom_foldl (l : List BindingTriple) :
    ∀ (suf : List BindingTriple) (acc : List (String × HostGroup)),
      (∀ x ∈ suf, x ∈ l) → ProvFrom l acc →
        ProvFrom l (suf.foldl tripleStep acc) := by
  intro suf
  induction suf with
  | nil => intro acc _ h; exact h
  | cons x rest ih =>
      intro acc hsub h
      exact ih (tripleStep acc x)
        (fun y hy => hsub y (List.mem_cons_of_mem _ hy))
        (provFrom_step l acc x (hsub x (List.mem_cons_self _ _)) h)

theorem buildGroups_prov (l : List BindingTriple) :
    ProvFrom l (buildGroups l) := by
  have : ProvFrom l [] := by intro arn g hg; simp [mapGet] at hg
  exact provFrom_foldl l l [] (fun x hx => hx) this

/-! ### Monotone key presence along the aggregation -/

/-- The group of `arn` (defaulting to an empty group) has `cp` among its
`ports` keys and `hp` among its `byHostPort` keys. -/
def KeyedAt (acc : List (String × HostGroup)) (arn : String)
    (cp hp : Nat) : Prop :=
  (mapGet (groupOf acc arn).ports cp).isSome = true ∧
    (mapGet (groupOf acc arn).byHostPort hp).isSome = true

theorem keyedAt_step (acc : List (String × HostGroup)) (x : BindingTriple)
    (arn : String) (cp hp : Nat) (h : KeyedAt acc arn cp hp) :
    KeyedAt (tripleStep acc x) arn cp hp := by
  by_cases harn : arn = x.1
  · subst harn
    unfold KeyedAt groupOf at h ⊢
    rw [tripleStep, addBinding, mapGet_mapSet_self]
    exact ⟨mapGet_isSome_mapSet _ _ _ _ h.1, mapGet_isSome_mapSet _ _ _ _ h.2⟩
  · unfold KeyedAt groupOf at h ⊢
    rwa [tripleStep, addBinding, mapGet_mapSet_ne _ _ _ _ harn]

theorem keyedAt_step_self (acc : List (String × HostGroup))
    (x : BindingTriple) :
    KeyedAt (tripleStep acc x) x.1 x.2.2.containerPort x.2.2.hostPort := by
  unfold KeyedAt groupOf
  rw [tripleStep, addBinding, mapGet_mapSet_self]
  simp [mapGet_mapSet_self]

theorem keyedAt_foldl (arn : String) (cp hp : Nat) :
    ∀ (suf : List BindingTriple) (acc : List (String × HostGroup)),
      KeyedAt acc arn cp hp →
        KeyedAt (suf.foldl tripleStep acc) arn cp hp := by
  intro suf
  induction suf with
  | nil => intro acc h; exact h
  | cons x rest ih =>
      intro acc h
      exact ih (tripleStep acc x) (keyedAt_step acc x arn cp hp h)

theorem buildGroups_keyedAt (l : List BindingTriple) (x : BindingTriple)
    (hx : x ∈ l) :
    KeyedAt (buildGroups l) x.1 x.2.2.containerPort x.2.2.hostPort := by
  rcases List.append_of_mem hx with ⟨s, t, rfl⟩
  unfold buildGroups
  rw [List.foldl_append, List.foldl_cons]
  exact keyedAt_foldl _ _ _ t _ (keyedAt_step_self _ x)

/-! ### Characterizing which triples exist -/

theorem mem_containerTriples (filter : Option (List Nat))
    (arn name : String) (bs : List NetworkBinding) (x : BindingTriple) :
    x ∈ containerTriples filter arn name bs ↔
      ∃ b ∈ bs, retainBinding filter b.containerPort = true ∧
        x = (arn, name, b) := by
  simp only [containerTriples, List.mem_map, List.mem_filter]
  constructor
  · rintro ⟨b, ⟨hb, hr⟩, rfl⟩
    exact ⟨b, hb, hr, rfl⟩
  · rintro ⟨b, hb, hr, rfl⟩
    exact ⟨b, ⟨hb, hr⟩, rfl⟩

theorem mem_containersTriples (filter : Option (List Nat)) (arn : String)
    (ovs : List ContainerOverride) (cs : List Container) :
    ∀ (j : Nat) (l : List BindingTriple) (x : BindingTriple),
      containersTriples filter arn ovs cs j = .ok l → x ∈ l →
        ∃ i c ov bs b, cs[i]? = some c ∧ ovs[j + i]? = some ov ∧
          c.networkBindings = some bs ∧ b ∈ bs ∧
          retainBinding filter b.containerPort = true ∧
          x = (arn, ov.name, b) := by
  induction cs with
  | nil =>
      intro j l x hl hx
      simp only [containersTriples] at hl
      cases hl
      simp at hx
  | cons c cs ih =>
      intro j l x hl hx
      simp only [containersTriples] at hl
      cases hov : ovs[j]? with
      | none => rw [hov] at hl; cases hl
      | some ov =>
          rw [hov] at hl
          cases hr : containersTriples filter arn ovs cs (j + 1) with
          | error e => rw [hr] at hl; cases hl
          | ok rest =>
              rw [hr] at hl
              simp only [Except.map] at hl
              cases hl
              rcases List.mem_append.mp hx with h1 | h1
              · cases hnb : c.networkBindings with
                | none => rw [hnb] at h1; simp at h1
                | some bs =>
                    rw [hnb] at h1
                    rcases (mem_containerTriples _ _ _ _ _).mp h1 with
                      ⟨b, hb, hret, rfl⟩
                    exact ⟨0, c, ov, bs, b, by simp, by simpa using hov,
                      hnb, hb, hret, rfl⟩
              · rcases ih (j + 1) rest x hr h1 with
                  ⟨i, c', ov', bs, b, hc, hov', hnb, hb, hret, rfl⟩
                refine ⟨i + 1, c', ov', bs, b, by simpa using hc, ?_, hnb,
                  hb, hret, rfl⟩
                have : j + (i + 1) = j + 1 + i := by omega
                rw [this]
                exact hov'

theorem containersTriples_mem_of_binding (filter : Option (List Nat))
    (arn : String) (ovs : List ContainerOverride) (cs : List Container) :
    ∀ (j : Nat) (l : List BindingTriple) (i : Nat) (c : Container)
      (ov : ContainerOverride) (bs : List NetworkBinding)
      (b : NetworkBinding),
      containersTriples filter arn ovs cs j = .ok l →
      cs[i]? = some c → ovs[j + i]? = some ov →
      c.networkBindings = some bs → b ∈ bs →
      retainBinding filter b.containerPort = true →
        (arn, ov.name, b) ∈ l := by
  induction cs with
  | nil => intro j l i c ov bs b hl hc; simp at hc
  | cons c₀ cs ih =>
      intro j l i c ov bs b hl hc hov hnb hb hret
      simp only [containersTriples] at hl
      cases hov0 : ovs[j]? with
      | none => rw [hov0] at hl; cases hl
      | some ov₀ =>
          rw [hov0] at hl
          cases hr : containersTriples filter arn ovs cs (j + 1) with
          | error e => rw [hr] at hl; cases hl
          | ok rest =>
              rw [hr] at hl
              simp only [Except.map] at hl
              cases hl
              cases i with
              | zero =>
                  simp at hc
                  subst hc
                  simp at hov
                  rw [hov] at hov0
                  cases hov0
                  refine List.mem_append.mpr (Or.inl ?_)
                  rw [hnb]
                  exact (mem_containerTriples _ _ _ _ _).mpr ⟨b, hb, hret, rfl⟩
              | succ i' =>
                  refine List.mem_append.mpr (Or.inr ?_)
                  have hov' : ovs[j + 1 + i']? = some ov := by
                    have : j + 1 + i' = j + (i' + 1) := by omega
                    rw [this]; exact hov
                  exact ih (j + 1) rest i' c ov bs b hr (by simpa using hc)
                    hov' hnb hb hret

theorem containersTriples_isSome_ov (filter : Option (List Nat))
    (arn : String) (ovs : List ContainerOverride) (cs : List Container) :
    ∀ (j : Nat) (l : List BindingTriple),
      containersTriples filter arn ovs cs j = .ok l →
        ∀ i, i < cs.length → (ovs[j + i]?).isSome = true := by
  induction cs with
  | nil => intro j l _ i hi; simp at hi
  | cons c cs ih =>
      intro j l hl i hi
      simp only [containersTriples] at hl
      cases hov : ovs[j]? with
      | none => rw [hov] at hl; cases hl
      | some ov =>
          rw [hov] at hl
          cases hr : containersTriples filter arn ovs cs (j + 1) with
          | error e => rw [hr] at hl; cases hl
          | ok rest =>
              cases i with
              | zero => simp [hov]
              | succ i' =>
                  have : j + (i' + 1) = j + 1 + i' := by omega
                  rw [this]
                  exact ih (j + 1) rest hr i' (by simpa using hi)

theorem mem_allTriples (filter : Option (List Nat)) (tasks : List TaskDetail) :
    ∀ (l : List BindingTriple) (x : BindingTriple),
      allTriples filter tasks = .ok l → x ∈ l →
        ∃ t ∈ tasks, ∃ l', taskTriples filter t = .ok l' ∧ x ∈ l' := by
  induction tasks with
  | nil =>
      intro l x hl hx
      simp only [allTriples] at hl
      cases hl
      simp at hx
  | cons t ts ih =>
      intro l x hl hx
      simp only [allTriples] at hl
      cases h1 : taskTriples filter t with
      | error e => rw [h1] at hl; cases hl
      | ok l₁ =>
          rw [h1] at hl
          cases h2 : allTriples filter ts with
          | error e =>
              rw [h2] at hl
              simp [Bind.bind, Except.bind] at hl
          | ok l₂ =>
              rw [h2] at hl
              simp only [Bind.bind, Except.bind, pure, Except.pure] at hl
              cases hl
              rcases List.mem_append.mp hx with h | h
              · exact ⟨t, List.mem_cons_self _ _, l₁, h1, h⟩
              · rcases ih l₂ x h2 h with ⟨t', ht', l', hl', hx'⟩
                exact ⟨t', List.mem_cons_of_mem _ ht', l', hl', hx'⟩

theorem allTriples_mem_of_task (filter : Option (List Nat))
    (tasks : List TaskDetail) :
    ∀ (l : List BindingTriple) (t : TaskDetail) (l' : List BindingTriple)
      (x : BindingTriple),
      allTriples filter tasks = .ok l → t ∈ tasks →
      taskTriples filter t = .ok l' → x ∈ l' → x ∈ l := by
  induction tasks with
  | nil => intro l t l' x _ ht; simp at ht
  | cons t₀ ts ih =>
      intro l t l' x hl ht ht' hx
      simp only [allTriples] at hl
      cases h1 : taskTriples filter t₀ with
      | error e => rw [h1] at hl; cases hl
      | ok l₁ =>
          rw [h1] at hl
          cases h2 : allTriples filter ts with
          | error e =>
              rw [h2] at hl
              simp [Bind.bind, Except.bind] at hl
          | ok l₂ =>
              rw [h2] at hl
              simp only [Bind.bind, Except.bind, pure, Except.pure] at hl
              cases hl
              rcases List.mem_cons.mp ht with h | h
              · subst h
                rw [ht'] at h1
                cases h1
                exact List.mem_append.mpr (Or.inl hx)
              · exact List.mem_append.mpr
                  (Or.inr (ih l₂ t l' x h2 h ht' hx))

theorem allTriples_task_ok (filter : Option (List Nat))
    (tasks : List TaskDetail) :
    ∀ (l : List BindingTriple) (t : TaskDetail),
      allTriples filter tasks = .ok l → t ∈ tasks →
        ∃ l', taskTriples filter t = .ok l' := by
  induction tasks with
  | nil => intro l t _ ht; simp at ht
  | cons t₀ ts ih =>
      intro l t hl ht
      simp only [allTriples] at hl
      cases h1 : taskTriples filter t₀ with
      | error e => rw [h1] at hl; cases hl
      | ok l₁ =>
          rw [h1] at hl
          cases h2 : allTriples filter ts with
          | error e =>
              rw [h2] at hl
              simp [Bind.bind, Except.bind] at hl
          | ok l₂ =>
              rcases List.mem_cons.mp ht with h | h
              · exact ⟨l₁, h ▸ h1⟩
              · exact ih l₂ t h2 h

theorem allTriples_retained (filter : Option (List Nat))
    (tasks : List TaskDetail) (l : List BindingTriple) (x : BindingTriple)
    (hl : allTriples filter tasks = .ok l) (hx : x ∈ l) :
    retainBinding filter x.2.2.containerPort = true := by
  rcases mem_allTriples filter tasks l x hl hx with ⟨t, _, l', ht', hx'⟩
  rcases mem_containersTriples filter t.containerInstanceArn
      t.containerOverrides t.containers 0 l' x ht' hx' with
    ⟨i, c, ov, bs, b, _, _, _, _, hret, rfl⟩
  exact hret

/-! ### Structure of the maps when bindings do not collide -/

theorem hostPairs_append (arn : String) (l₁ l₂ : List BindingTriple) :
    hostPairs arn (l₁ ++ l₂) = hostPairs arn l₁ ++ hostPairs arn l₂ := by
  simp [hostPairs, List.filter_append]

theorem hostPairs_cons_self (arn : String) (x : BindingTriple)
    (l : List BindingTriple) (hx : x.1 = arn) :
    hostPairs arn (x :: l) =
      (x.2.2.containerPort, x.2.2.hostPort) :: hostPairs arn l := by
  simp [hostPairs, List.filter_cons, hx]

theorem hostPairs_cons_other (arn : String) (x : BindingTriple)
    (l : List BindingTriple) (hx : ¬(x.1 = arn)) :
    hostPairs arn (x :: l) = hostPairs arn l := by
  simp [hostPairs, List.filter_cons, hx]

/-- Per-host collision-freeness: on each host the retained bindings have
pairwise-distinct containerPorts and pairwise-distinct hostPorts. -/
def NoCollisions (l : List BindingTriple) : Prop :=
  ∀ arn ∈ l.map (fun x => x.1), ((hostPairs arn l).map Prod.fst).Nodup ∧
    ((hostPairs arn l).map Prod.snd).Nodup

theorem buildGroups_go (full : List BindingTriple)
    (H : NoCollisions full) :
    ∀ (suf pre : List BindingTriple) (acc : List (String × HostGroup)),
      full = pre ++ suf →
      (∀ arn, (groupOf acc arn).ports = hostPairs arn pre ∧
        (groupOf acc arn).byHostPort.map Prod.fst =
          (hostPairs arn pre).map Prod.snd) →
      ∀ arn, (groupOf (suf.foldl tripleStep acc) arn).ports =
          hostPairs arn full ∧
        (groupOf (suf.foldl tripleStep acc) arn).byHostPort.map Prod.fst =
          (hostPairs arn full).map Prod.snd := by
  intro suf
  induction suf with
  | nil =>
      intro pre acc hfull hinv arn
      subst hfull
      simpa using hinv arn
  | cons x rest ih =>
      intro pre acc hfull hinv
      rw [List.foldl_cons]
      refine ih (pre ++ [x]) (tripleStep acc x) (by simp [hfull]) ?_
      intro arn
      by_cases harn : arn = x.1
      · subst harn
        have hports : (groupOf acc x.1).ports = hostPairs x.1 pre :=
          (hinv x.1).1
        have hkeys : (groupOf acc x.1).byHostPort.map Prod.fst =
            (hostPairs x.1 pre).map Prod.snd := (hinv x.1).2
        have hful : hostPairs x.1 full =
            hostPairs x.1 pre ++
              ((x.2.2.containerPort, x.2.2.hostPort) ::
                hostPairs x.1 rest) := by
          rw [hfull, hostPairs_append, hostPairs_cons_self x.1 x rest rfl]
        have hx1mem : x.1 ∈ full.map (fun y => y.1) := by
          rw [hfull]
          exact List.mem_map_of_mem _
            (List.mem_append.mpr (Or.inr (List.mem_cons_self _ _)))
        have hcps := (H x.1 hx1mem).1
        have hhps := (H x.1 hx1mem).2
        rw [hful] at hcps hhps
        simp only [List.map_append, List.map_cons] at hcps hhps
        have hcp_not : x.2.2.containerPort ∉
            (hostPairs x.1 pre).map Prod.fst := by
          intro hmem
          exact (List.nodup_append.mp hcps).2.2 hmem (List.mem_cons_self _ _)
        have hhp_not : x.2.2.hostPort ∉
            (hostPairs x.1 pre).map Prod.snd := by
          intro hmem
          exact (List.nodup_append.mp hhps).2.2 hmem (List.mem_cons_self _ _)
        have hne_p : ∀ p ∈ (groupOf acc x.1).ports,
            p.1 ≠ x.2.2.containerPort := by
          intro p hp hcontra
          exact hcp_not (hports ▸ hcontra ▸ List.mem_map_of_mem Prod.fst hp)
        have hne_q : ∀ q ∈ (groupOf acc x.1).byHostPort,
            q.1 ≠ x.2.2.hostPort := by
          intro q hq hcontra
          have : q.1 ∈ (hostPairs x.1 pre).map Prod.snd :=
            hkeys ▸ List.mem_map_of_mem Prod.fst hq
          exact hhp_not (hcontra ▸ this)
        have hget : groupOf (tripleStep acc x) x.1 =
            { ports := mapSet (groupOf acc x.1).ports x.2.2.containerPort
                x.2.2.hostPort,
              byHostPort := mapSet (groupOf acc x.1).byHostPort
                x.2.2.hostPort
                { containerName := x.2.1,
                  containerPort := x.2.2.containerPort } } := by
          unfold groupOf tripleStep addBinding
          rw [mapGet_mapSet_self]
          rfl
        constructor
        · rw [hget]
          show mapSet (groupOf acc x.1).ports _ _ = _
          rw [mapSet_append_of_not_mem _ _ _ hne_p, hports,
            hostPairs_append, hostPairs_cons_self x.1 x [] rfl]
          simp [hostPairs]
        · rw [hget]
          show (mapSet (groupOf acc x.1).byHostPort _ _).map Prod.fst = _
          rw [mapSet_append_of_not_mem _ _ _ hne_q]
          rw [List.map_append, hkeys, hostPairs_append,
            hostPairs_cons_self x.1 x [] rfl]
          simp [hostPairs]
      · have hget : groupOf (tripleStep acc x) arn = groupOf acc arn := by
          unfold groupOf tripleStep addBinding
          rw [mapGet_mapSet_ne _ _ _ _ harn]
        rw [hget, hostPairs_append,
          hostPairs_cons_other arn x [] (fun hh => harn hh.symm)]
        simpa [hostPairs] using hinv arn

theorem buildGroups_of_noCollisions (l : List BindingTriple)
    (H : NoCollisions l) :
    ∀ arn, (groupOf (buildGroups l) arn).ports = hostPairs arn l ∧
      (groupOf (buildGroups l) arn).byHostPort.map Prod.fst =
        (hostPairs arn l).map Prod.snd := by
  have hbase : ∀ arn, (groupOf ([] : List (String × HostGroup)) arn).ports =
      hostPairs arn [] ∧
      (groupOf ([] : List (String × HostGroup)) arn).byHostPort.map
        Prod.fst = (hostPairs arn []).map Prod.snd := by
    intro arn
    simp [groupOf, mapGet, hostPairs]
  exact buildGroups_go l H l [] [] (by simp) hbase

/-! ### Port counter lemmas -/

theorem forwardClauses_snd (l : List (Nat × Nat)) :
    ∀ p, (forwardClauses l p).2 = p + l.length := by
  induction l with
  | nil => intro p; simp [forwardClauses]
  | cons x rest ih =>
      intro p
      simp only [forwardClauses, ih (p + 1), List.length_cons]
      omega

theorem clausePorts_eq_range' (l : List (Nat × Nat)) :
    ∀ p, clausePorts l p = List.range' p l.length := by
  induction l with
  | nil => intro p; simp [clausePorts]
  | cons x rest ih =>
      intro p
      rw [List.length_cons, List.range'_succ]
      simp [clausePorts, ih (p + 1)]

theorem emittedPorts_eq_range'
    (entries : List (String × HostGroup × Option String)) :
    ∀ p, emittedPorts entries p = List.range' p (totalClauses entries) := by
  induction entries with
  | nil => intro p; simp [emittedPorts, totalClauses]
  | cons e rest ih =>
      intro p
      simp only [emittedPorts, clausePorts_eq_range', forwardClauses_snd,
        ih]
      have : totalClauses (e :: rest) =
          e.2.1.ports.length + totalClauses rest := by
        simp [totalClauses]
      rw [this]
      have happ := List.range'_append p e.2.1.ports.length
        (totalClauses rest) 1
      simp only [Nat.one_mul] at happ
      rw [Nat.add_comm e.2.1.ports.length (totalClauses rest)]
      exact happ

/-- The clause string of one group pairs the counter values of
`clausePorts` with the group's hostPorts, in order. -/
theorem forwardClauses_fst (l : List (Nat × Nat)) :
    ∀ p, (forwardClauses l p).1 =
      ((clausePorts l p).zip l).foldr
        (fun q acc => " -L" ++ toString q.1 ++ ":localhost:" ++
          toString q.2.2 ++ acc) "" := by
  induction l with
  | nil => intro p; simp [forwardClauses, clausePorts]
  | cons x rest ih =>
      intro p
      simp [forwardClauses, clausePorts, ih (p + 1)]

/-! ### Address stage lemmas -/

theorem instanceAddr_ipv4 (inst : Ec2Instance) :
    instanceAddr false inst = .ok inst.publicIpAddress := rfl

theorem lookupAddresses_ipv4_ok (rs : List Reservation) :
    exceptIsOk (lookupAddresses false rs) = true := by
  have inner : ∀ (insts : List Ec2Instance)
      (acc : List (String × Option String)),
      ∃ m, insts.foldlM
        (fun acc inst =>
          (instanceAddr false inst).map
            (fun a => mapSet acc inst.instanceId a)) acc = .ok m := by
    intro insts
    induction insts with
    | nil => intro acc; exact ⟨acc, rfl⟩
    | cons inst rest ih =>
        intro acc
        rcases ih (mapSet acc inst.instanceId inst.publicIpAddress) with
          ⟨m, hm⟩
        exact ⟨m, by
          simpa [List.foldlM_cons, instanceAddr_ipv4, Except.map,
            Bind.bind, Except.bind] using hm⟩
  have outer : ∀ (rl : List Reservation)
      (acc : List (String × Option String)),
      ∃ m, rl.foldlM
        (fun acc r =>
          r.instances.foldlM
            (fun acc inst =>
              (instanceAddr false inst).map
                (fun a => mapSet acc inst.instanceId a)) acc) acc =
          .ok m := by
    intro rl
    induction rl with
    | nil => intro acc; exact ⟨acc, rfl⟩
    | cons r rest ih =>
        intro acc
        rcases inner r.instances acc with ⟨m₁, hm₁⟩
        rcases ih m₁ with ⟨m₂, hm₂⟩
        exact ⟨m₂, by
          simpa [List.foldlM_cons, hm₁, Bind.bind, Except.bind] using hm₂⟩
  rcases outer rs [] with ⟨m, hm⟩
  simp [lookupAddresses, hm, exceptIsOk]

theorem lookupAddresses_fails_of_instance (rs : List Reservation)
    (r : Reservation) (inst : Ec2Instance) (hr : r ∈ rs)
    (hi : inst ∈ r.instances)
    (hfail : exceptIsOk (instanceAddr true inst) = false) :
    exceptIsOk (lookupAddresses true rs) = false := by
  have hstepfail : ∀ (acc : List (String × Option String)),
      ∃ e, instanceAddr true inst = .error e := by
    intro _
    cases h : instanceAddr true inst with
    | ok v => rw [h] at hfail; simp [exceptIsOk] at hfail
    | error e => exact ⟨e, rfl⟩
  have inner : ∀ (insts : List Ec2Instance), inst ∈ insts →
      ∀ (acc : List (String × Option String)),
      ∃ e, insts.foldlM
        (fun acc inst =>
          (instanceAddr true inst).map
            (fun a => mapSet acc inst.instanceId a)) acc = .error e := by
    intro insts
    induction insts with
    | nil => intro h; simp at h
    | cons i₀ rest ih =>
        intro hmem acc
        cases h0 : instanceAddr true i₀ with
        | error e =>
            exact ⟨e, by simp [List.foldlM_cons, h0, Except.map,
              Bind.bind, Except.bind]⟩
        | ok v =>
            rcases List.mem_cons.mp hmem with h | h
            · subst h
              rcases hstepfail acc with ⟨e, he⟩
              rw [he] at h0
              cases h0
            · rcases ih h (mapSet acc i₀.instanceId v) with ⟨e, he⟩
              refine ⟨e, ?_⟩
              rw [List.foldlM_cons]
              have hstep : Except.map
                  (fun a => mapSet acc i₀.instanceId a)
                  (instanceAddr true i₀) =
                    .ok (mapSet acc i₀.instanceId v) := by
                rw [h0]; rfl
              simp only [hstep, Bind.bind, Except.bind]
              exact he
  have outer : ∀ (rl : List Reservation), r ∈ rl →
      ∀ (acc : List (String × Option String)),
      ∃ e, rl.foldlM
        (fun acc r =>
          r.instances.foldlM
            (fun acc inst =>
              (instanceAddr true inst).map
                (fun a => mapSet acc inst.instanceId a)) acc) acc =
          .error e := by
    intro rl
    induction rl with
    | nil => intro h; simp at h
    | cons r₀ rest ih =>
        intro hmem acc
        rcases List.mem_cons.mp hmem with h | h
        · subst h
          rcases inner r.instances hi acc with ⟨e, he⟩
          refine ⟨e, ?_⟩
          rw [List.foldlM_cons]
          simp only [he, Bind.bind, Except.bind]
        · cases h1 : r₀.instances.foldlM
              (fun acc inst =>
                (instanceAddr true inst).map
                  (fun a => mapSet acc inst.instanceId a)) acc with
          | error e =>
              refine ⟨e, ?_⟩
              rw [List.foldlM_cons]
              simp only [h1, Bind.bind, Except.bind]
          | ok m =>
              rcases ih h m with ⟨e, he⟩
              refine ⟨e, ?_⟩
              rw [List.foldlM_cons]
              simp only [h1, Bind.bind, Except.bind]
              exact he
  rcases outer rs hr [] with ⟨e, he⟩
  simp [lookupAddresses, he, exceptIsOk]

/-! ### Remaining helper lemmas -/

theorem mem_map_fst_of_hostPairs_ne_nil (arn : String) :
    ∀ l : List BindingTriple, hostPairs arn l ≠ [] →
      arn ∈ l.map (fun x => x.1) := by
  intro l
  induction l with
  | nil => intro h; simp [hostPairs] at h
  | cons x rest ih =>
      intro h
      by_cases hx : x.1 = arn
      · simp [hx]
      · rw [hostPairs_cons_other arn x rest hx] at h
        simpa using Or.inr (by simpa using ih h)

theorem findServiceResource_eq_none (l : List StackResource)
    (h : ∀ r ∈ l, r.resourceType ≠ "AWS::ECS::Service") :
    findServiceResource l = none := by
  induction l with
  | nil => rfl
  | cons r rest ih =>
      have hr : r.resourceType ≠ "AWS::ECS::Service" := h r (by simp)
      simp only [findServiceResource, if_neg hr]
      exact ih (fun q hq => h q (by simp [hq]))

theorem findServiceResource_eq_first (l : List StackResource) :
    ∀ (i : Nat) (r : StackResource), l[i]? = some r →
      r.resourceType = "AWS::ECS::Service" →
      (∀ i' r', i' < i → l[i']? = some r' →
        r'.resourceType ≠ "AWS::ECS::Service") →
      findServiceResource l = some r.physicalResourceId := by
  induction l with
  | nil => intro i r h; simp at h
  | cons r₀ rest ih =>
      intro i r hget htype hfirst
      cases i with
      | zero =>
          simp at hget
          subst hget
          simp [findServiceResource, htype]
      | succ i' =>
          have hr0 : r₀.resourceType ≠ "AWS::ECS::Service" :=
            hfirst 0 r₀ (Nat.succ_pos _) (by simp)
          simp only [findServiceResource, if_neg hr0]
          exact ih i' r (by simpa using hget) htype
            (fun i'' r'' hi'' hg'' =>
              hfirst (i'' + 1) r'' (by omega) (by simpa using hg''))

theorem sshLine_fst (g : HostGroup) (ip : Option String) (p : Nat) :
    (sshLine g ip p).1 =
      "ssh" ++ (forwardClauses g.ports p).1 ++ " ec2-user@" ++ jsStr ip := by
  unfold sshLine
  rfl

/-! ### Claim theorems -/

/-- C1: on the spec's worked example (stack "svc-A" with one ECS-service
resource and parameter ClusterStackName="cluster-A"; cluster "cluster-A"
resolving to "i-cluster-phys"; one task with one container "web" binding
containerPort 80 to hostPort 32768 on host "ci-1" mapped to instance
"i-0001" with public IPv4 "1.2.3.4"; no port filter, IPv4 mode, default
starting port) the program prints exactly the two lines
`ssh -L49152:localhost:32768 ec2-user@1.2.3.4` and `32768\tweb:80`. -/
theorem claim_c1_example_output :
    runPipeline envC1 "svc-A" none none none false none =
      .ok ["ssh -L49152:localhost:32768 ec2-user@1.2.3.4",
           "32768\tweb:80"] := by rfl

/-- C10: in the indirect cluster-resolution variant, a `ClusterStackName`
parameter whose value is the empty string fails with
"Cluster stack parameter not found" exactly like an absent parameter, and
a successful resolution never returns the empty string. -/
theorem claim_c10_empty_cluster_param (env : Env) (stackName : String)
    (s : CfStack) (rest : List CfStack)
    (henv : env.describeStacks stackName = s :: rest) :
    (findClusterParam s.parameters = some "" →
      getClusterStackName env stackName =
        .error (.thrown "Cluster stack parameter not found")) ∧
    (findClusterParam s.parameters = none →
      getClusterStackName env stackName =
        .error (.thrown "Cluster stack parameter not found")) ∧
    (∀ v, getClusterStackName env stackName = .ok v → v ≠ "") := by
  refine ⟨?_, ?_, ?_⟩
  · intro hfind
    simp [getClusterStackName, henv, hfind]
  · intro hfind
    simp [getClusterStackName, henv, hfind]
  · intro v hok hv
    subst hv
    simp only [getClusterStackName, henv] at hok
    cases hfind : findClusterParam s.parameters with
    | none => simp only [hfind] at hok; cases hok
    | some w =>
        simp only [hfind] at hok
        by_cases hw : w = ""
        · simp [hw] at hok
        · simp only [if_neg hw, Except.ok.injEq] at hok
          exact hw hok

/-- C10 witness: stack "s10" of `envC10` declares
ClusterStackName="", and resolution fails with the ConfigMissing
error. -/
theorem claim_c10_witness :
    getClusterStackName envC10 "s10" =
      .error (.thrown "Cluster stack parameter not found") :=
  (claim_c10_empty_cluster_param envC10 "s10" stackC10 [] rfl).1 rfl

/-- C8: with a (truthy) logical service name, an empty resource response
is "Service not found" and a singleton response yields that resource's
physical id; without a logical name, the first resource whose type is
"AWS::ECS::Service" yields its physical id, and if no resource has that
type the result is "Service not found". -/
theorem claim_c8_identity_resolver (env : Env) (stackName : String)
    (sn : Option String) (resources : List StackResource)
    (henv : env.describeStackResources stackName
      (if jsTruthyStr sn then sn else none) = resources) :
    (jsTruthyStr sn = true → resources = [] →
      getServiceName env stackName sn =
        .error (.thrown "Service not found")) ∧
    (jsTruthyStr sn = true → ∀ r, resources = [r] →
      getServiceName env stackName sn = .ok r.physicalResourceId) ∧
    (jsTruthyStr sn = false →
      (∀ r ∈ resources, r.resourceType ≠ "AWS::ECS::Service") →
      getServiceName env stackName sn =
        .error (.thrown "Service not found")) ∧
    (jsTruthyStr sn = false → ∀ (i : Nat) (r : StackResource),
      resources[i]? = some r →
      r.resourceType = "AWS::ECS::Service" →
      (∀ (i' : Nat) (r' : StackResource), i' < i →
        resources[i']? = some r' →
        r'.resourceType ≠ "AWS::ECS::Service") →
      getServiceName env stackName sn = .ok r.physicalResourceId) := by
  refine ⟨?_, ?_, ?_, ?_⟩
  · intro htr hres
    rw [getServiceName, henv, hres]
    simp [htr]
  · intro htr r hres
    rw [getServiceName, henv, hres]
    simp [htr]
  · intro htr hnone
    rw [getServiceName, henv]
    simp only [htr, Bool.false_eq_true, if_false]
    rw [findServiceResource_eq_none resources hnone]
  · intro htr i r hget htype hfirst
    rw [getServiceName, henv]
    simp only [htr, Bool.false_eq_true, if_false]
    rw [findServiceResource_eq_first resources i r hget htype hfirst]

/-- C8 witness: in `envC8`, without a logical name the resolver skips the
bucket resource and returns the physical id of the first ECS-service
resource. -/
theorem claim_c8_witness :
    getServiceName envC8 "s8" none = .ok "svc8-phys" := by
  have h := (claim_c8_identity_resolver envC8 "s8" none
    [⟨"other", "bucket8", "AWS::S3::Bucket"⟩,
     ⟨"svc", "svc8-phys", "AWS::ECS::Service"⟩] (by rfl)).2.2.2
  refine h rfl 1 ⟨"svc", "svc8-phys", "AWS::ECS::Service"⟩ (by rfl) rfl ?_
  intro i' r' hi' hg'
  have h0 : i' = 0 := by omega
  subst h0
  simp at hg'
  rw [← hg']
  decide

/-- C5 counterexample: an instance with no network interface at all makes
the IPv6 lookup fail with a TypeError (property access on `undefined`),
not with the "No IPv6 address" error the claim names. -/
theorem claim_c5_counterexample :
    lookupAddresses true [⟨[instC5b]⟩] = .error .typeError ∧
      Err.typeError ≠ Err.thrown "No IPv6 address" := by
  exact ⟨rfl, by decide⟩

/-- C5 (amended): in IPv6 mode, an instance whose first network interface
exists but whose IPv6 address list is absent or empty fails with the
"No IPv6 address" error; an instance with no first network interface
fails with a TypeError instead; otherwise the first IPv6 address of the
first interface is recorded; any such per-instance failure fails the
whole lookup. -/
theorem claim_c5_ipv6_addresses :
    (∀ inst : Ec2Instance, inst.networkInterfaces[0]? = none →
      instanceAddr true inst = .error .typeError) ∧
    (∀ (inst : Ec2Instance) (ni : NetworkInterface),
      inst.networkInterfaces[0]? = some ni →
      (ni.ipv6Addresses = none ∨ ni.ipv6Addresses = some []) →
      instanceAddr true inst = .error (.thrown "No IPv6 address")) ∧
    (∀ (inst : Ec2Instance) (ni : NetworkInterface) (a : Ipv6Entry)
      (rest : List Ipv6Entry),
      inst.networkInterfaces[0]? = some ni →
      ni.ipv6Addresses = some (a :: rest) →
      instanceAddr true inst = .ok (some a.ipv6Address)) ∧
    (∀ (rs : List Reservation) (r : Reservation) (inst : Ec2Instance),
      r ∈ rs → inst ∈ r.instances →
      exceptIsOk (instanceAddr true inst) = false →
      exceptIsOk (lookupAddresses true rs) = false) := by
  refine ⟨?_, ?_, ?_, ?_⟩
  · intro inst h
    simp [instanceAddr, h]
  · intro inst ni h hv
    rcases hv with hv | hv <;> simp [instanceAddr, h, hv]
  · intro inst ni a rest h hv
    simp [instanceAddr, h, hv]
  · exact fun rs r inst hr hi hf =>
      lookupAddresses_fails_of_instance rs r inst hr hi hf

/-- C5 witness: `instC5a` has a first interface with an empty IPv6 list;
its lookup fails with "No IPv6 address" and the whole run fails. -/
theorem claim_c5_witness :
    instanceAddr true instC5a = .error (.thrown "No IPv6 address") ∧
      exceptIsOk (lookupAddresses true [resvC5]) = false := by
  have h1 := claim_c5_ipv6_addresses.2.1 instC5a ⟨some []⟩ rfl (Or.inr rfl)
  have h2 := claim_c5_ipv6_addresses.2.2.2 [resvC5] resvC5 instC5a
    (List.mem_singleton.mpr rfl) (by simp [resvC5, instC5a]) (by rfl)
  exact ⟨h1, h2⟩

/-- C6 counterexample: an instance present in the response but with no
`PublicIpAddress` renders the ssh destination as the literal text
`ec2-user@undefined` (JavaScript string coercion of `undefined`), not as
an empty address after `ec2-user@`. -/
theorem claim_c6_counterexample :
    lookupAddresses false [⟨[⟨"i-6", none, []⟩]⟩] = .ok [("i-6", none)] ∧
    emitAll [("h6", grpC6, some "i-6")] [("i-6", none)] none =
      ["ssh -L49152:localhost:32768 ec2-user@undefined",
       "32768\tweb:80"] ∧
    "ssh -L49152:localhost:32768 ec2-user@undefined" ≠
      "ssh -L49152:localhost:32768 ec2-user@" := by
  refine ⟨rfl, rfl, by decide⟩

/-- C6 (amended): in IPv4 mode the address lookup never fails — the
possibly-absent `PublicIpAddress` is recorded as-is — and the run
completes; an empty-string address renders as an empty host after
`ec2-user@`, while an absent address renders as the text `undefined`. -/
theorem claim_c6_ipv4_no_failure :
    (∀ rs : List Reservation,
      exceptIsOk (lookupAddresses false rs) = true) ∧
    (∀ inst : Ec2Instance,
      instanceAddr false inst = .ok inst.publicIpAddress) ∧
    (∀ (g : HostGroup) (p : Nat),
      (sshLine g (some "") p).1 =
        "ssh" ++ (forwardClauses g.ports p).1 ++ " ec2-user@") ∧
    (∀ (g : HostGroup) (p : Nat),
      (sshLine g none p).1 =
        "ssh" ++ (forwardClauses g.ports p).1 ++ " ec2-user@undefined") := by
  refine ⟨lookupAddresses_ipv4_ok, fun inst => rfl, ?_, ?_⟩
  · intro g p
    rw [sshLine_fst]
    simp [jsStr]
  · intro g p
    rw [sshLine_fst, String.append_assoc]
    rfl

/-- C2 counterexample: with a configured starting local port of 0,
JavaScript `startingPort || 49152` treats 0 as falsy, so the first
emitted clause uses 49152 and not the configured value. -/
theorem claim_c2_counterexample :
    emittedPorts entriesC2 (jsPort (some 0)) = [49152, 49153] ∧
      (49152 : Nat) ≠ 0 := by
  exact ⟨rfl, by decide⟩

/-- C2 (amended): the emitted local forward ports form the contiguous
strictly increasing range starting at `startingPort || 49152` — the
configured port when it is nonzero, 49152 when it is absent or 0 — with
the counter incrementing once per clause and never resetting at
host-group boundaries. -/
theorem claim_c2_ports_increasing
    (entries : List (String × HostGroup × Option String))
    (start : Option Nat) :
    emittedPorts entries (jsPort start) =
      List.range' (jsPort start) (totalClauses entries) ∧
    List.Pairwise (· < ·) (emittedPorts entries (jsPort start)) ∧
    (∀ (p : Nat) (rest : List Nat),
      emittedPorts entries (jsPort start) = p :: rest →
        p = jsPort start) ∧
    jsPort none = 49152 ∧
    (∀ n : Nat, n ≠ 0 → jsPort (some n) = n) := by
  refine ⟨emittedPorts_eq_range' entries _, ?_, ?_, rfl, ?_⟩
  · rw [emittedPorts_eq_range']
    exact List.pairwise_lt_range' _ _ 1 Nat.le.refl
  · intro p rest h
    rw [emittedPorts_eq_range'] at h
    cases hn : totalClauses entries with
    | zero => rw [hn] at h; simp [List.range'] at h
    | succ m =>
        rw [hn, List.range'_succ] at h
        exact (List.cons.injEq _ _ _ _ ▸ h).1.symm
  · intro n hn
    simp [jsPort, hn]

/-- C2 witness: for the concrete entry list `entriesC2` and configured
starting port 50000 the emitted ports are the range from 50000. -/
theorem claim_c2_witness :
    emittedPorts entriesC2 (jsPort (some 50000)) =
      List.range' (jsPort (some 50000)) (totalClauses entriesC2) ∧
      jsPort (some 50000) = 50000 :=
  ⟨(claim_c2_ports_increasing entriesC2 (some 50000)).1,
   (claim_c2_ports_increasing entriesC2 (some 50000)).2.2.2.2 50000
     (by decide)⟩

/-- C7: when the resolvers succeed, the task-listing query returns no
task references and the follow-up queries on the resulting empty inputs
return empty results, the run is not an error: the aggregation yields
zero host groups and the pipeline returns zero output lines. -/
theorem claim_c7_empty_tasks (env : Env) (s : String)
    (sn cl : Option String) (cp : Option (List Nat)) (ipv6 : Bool)
    (sp : Option Nat) (sname cname : String)
    (h1 : getServiceName env s sn = .ok sname)
    (h2 : resolveCluster env s cl = .ok cname)
    (h3 : env.listTasks cname sname = [])
    (h4 : env.describeTasks cname [] = [])
    (h5 : env.describeContainerInstances cname [] = [])
    (h6 : env.describeInstances [] = []) :
    aggregateTasks cp (env.describeTasks cname
      (env.listTasks cname sname)) = .ok [] ∧
    runPipeline env s sn cl cp ipv6 sp = .ok [] := by
  constructor
  · rw [h3, h4]; rfl
  · simp only [runPipeline, h1, h2, h3, h4, h5, h6, Bind.bind,
      Except.bind, aggregateTasks, List.foldlM_nil, List.map_nil,
      attachInstanceIds, lookupAddresses, emitAll, emitEntries, pure,
      Except.pure]

/-- C7 witness: in `envC7` resolution succeeds, the service has no
tasks, and the pipeline prints nothing. -/
theorem claim_c7_witness :
    runPipeline envC7 "s7" none none none false none = .ok [] :=
  (claim_c7_empty_tasks envC7 "s7" none none none false none
    "svc7" "c7" rfl rfl rfl rfl rfl rfl).2

/-- C3 counterexample: two retained bindings on host "h3" share
containerPort 80 with different hostPorts; the last write wins in the
`ports` map, so legend key 100 appears zero times — not exactly once —
among the port map's values. -/
theorem claim_c3_counterexample :
    aggregateTasks none [taskC3] = .ok [("h3", grpC3)] ∧
      100 ∈ grpC3.byHostPort.map Prod.fst ∧
      List.count 100 (grpC3.ports.map Prod.snd) = 0 := by
  exact ⟨rfl, by decide, by decide⟩

/-- C3 (amended): when the retained bindings targeting each host have
pairwise-distinct containerPorts and pairwise-distinct hostPorts, every
hostPort appearing as a key of a group's byHostPort legend appears
exactly once as a value of that group's ports map. -/
theorem claim_c3_legend_vs_ports (filter : Option (List Nat))
    (tasks : List TaskDetail) (l : List BindingTriple)
    (res : List (String × HostGroup)) (arn : String) (g : HostGroup)
    (hp : Nat)
    (hall : allTriples filter tasks = .ok l)
    (hagg : aggregateTasks filter tasks = .ok res)
    (hnc : NoCollisions l)
    (hget : mapGet res arn = some g)
    (hmem : hp ∈ g.byHostPort.map Prod.fst) :
    List.count hp (g.ports.map Prod.snd) = 1 := by
  rw [aggregateTasks_eq, hall] at hagg
  simp only [Except.map] at hagg
  injection hagg with hres
  subst hres
  have hgOf : groupOf (buildGroups l) arn = g := by simp [groupOf, hget]
  rcases buildGroups_of_noCollisions l hnc arn with ⟨hp1, hp2⟩
  rw [hgOf] at hp1 hp2
  rw [hp2] at hmem
  have hne : hostPairs arn l ≠ [] := by
    intro hnil; rw [hnil] at hmem; simp at hmem
  have harnmem := mem_map_fst_of_hostPairs_ne_nil arn l hne
  rw [hp1]
  exact List.count_eq_one_of_mem ((hnc arn harnmem).2) hmem

/-- C3 witness: for the collision-free task `taskC3w`, legend key 100
appears exactly once among the port map's values. -/
theorem claim_c3_witness :
    List.count 100 (grpC3w.ports.map Prod.snd) = 1 :=
  claim_c3_legend_vs_ports none [taskC3w] triplesC3w [("h3w", grpC3w)]
    "h3w" grpC3w 100 rfl rfl (by unfold NoCollisions; decide) rfl
    (by decide)

/-- C4: under a supplied allow-set only member containerPorts reach
either map (every ports key and every legend entry is retained), and
every retained binding of the task details contributes its containerPort
key and hostPort key to its host's two maps; with no set supplied every
binding is retained. -/
theorem claim_c4_port_filter (filter : Option (List Nat))
    (tasks : List TaskDetail) (res : List (String × HostGroup))
    (hagg : aggregateTasks filter tasks = .ok res) :
    (∀ (arn : String) (g : HostGroup) (cp hp : Nat),
      mapGet res arn = some g → (cp, hp) ∈ g.ports →
        retainBinding filter cp = true) ∧
    (∀ (arn : String) (g : HostGroup) (hp : Nat) (e : PortEntry),
      mapGet res arn = some g → (hp, e) ∈ g.byHostPort →
        retainBinding filter e.containerPort = true) ∧
    (∀ t ∈ tasks, ∀ (j : Nat) (c : Container) (bs : List NetworkBinding)
      (b : NetworkBinding),
      t.containers[j]? = some c → c.networkBindings = some bs → b ∈ bs →
      retainBinding filter b.containerPort = true →
        (mapGet (groupOf res t.containerInstanceArn).ports
          b.containerPort).isSome = true ∧
        (mapGet (groupOf res t.containerInstanceArn).byHostPort
          b.hostPort).isSome = true) := by
  rw [aggregateTasks_eq] at hagg
  cases hall : allTriples filter tasks with
  | error e => rw [hall] at hagg; simp [Except.map] at hagg
  | ok l =>
      rw [hall] at hagg
      simp only [Except.map] at hagg
      injection hagg with hres
      subst hres
      refine ⟨?_, ?_, ?_⟩
      · intro arn g cp hp hget hmem
        rcases (buildGroups_prov l arn g hget).1 (cp, hp) hmem with
          ⟨x, hx, _, hx2, _⟩
        have hr := allTriples_retained filter tasks l x hall hx
        rwa [hx2] at hr
      · intro arn g hp e hget hmem
        rcases (buildGroups_prov l arn g hget).2 (hp, e) hmem with
          ⟨x, hx, _, _, hxc, _⟩
        have hr := allTriples_retained filter tasks l x hall hx
        rwa [hxc] at hr
      · intro t ht j c bs b hc hnb hb hret
        rcases allTriples_task_ok filter tasks l t hall ht with ⟨l', hl'⟩
        have hjlen : j < t.containers.length :=
          (List.getElem?_eq_some.mp hc).1
        have hovS := containersTriples_isSome_ov filter
          t.containerInstanceArn t.containerOverrides t.containers 0 l'
          hl' j hjlen
        rw [Nat.zero_add] at hovS
        rcases Option.isSome_iff_exists.mp hovS with ⟨ov, hov⟩
        have hmem' : (t.containerInstanceArn, ov.name, b) ∈ l' :=
          containersTriples_mem_of_binding filter t.containerInstanceArn
            t.containerOverrides t.containers 0 l' j c ov bs b hl' hc
            (by rwa [Nat.zero_add]) hnb hb hret
        have hmem : (t.containerInstanceArn, ov.name, b) ∈ l :=
          allTriples_mem_of_task filter tasks l t l' _ hall ht hl' hmem'
        have hk := buildGroups_keyedAt l _ hmem
        exact ⟨hk.1, hk.2⟩

/-- C4 witness: with filter `{80}` on `taskC4`, the retained binding
80→32768 contributes both keys to host "h4"'s maps. -/
theorem claim_c4_witness :
    (mapGet (groupOf resC4 "h4").ports 80).isSome = true ∧
      (mapGet (groupOf resC4 "h4").byHostPort 32768).isSome = true := by
  have h := (claim_c4_port_filter (some [80]) [taskC4] resC4 rfl).2.2
  exact h taskC4 (by simp) 0 ⟨some [⟨80, 32768⟩, ⟨9000, 40000⟩]⟩
    [⟨80, 32768⟩, ⟨9000, 40000⟩] ⟨80, 32768⟩ rfl rfl (by decide)
    (by decide)

/-- C9: every entry of a final byHostPort legend was recorded from some
task, container index j and binding, with the containerName taken from
the override list at the same index j (positional pairing); and the
aggregation performs no validation that the containers and overrides
lists have equal length — `taskC9`, whose overrides list is longer,
aggregates without error. -/
theorem claim_c9_positional_names (filter : Option (List Nat))
    (tasks : List TaskDetail) (res : List (String × HostGroup))
    (hagg : aggregateTasks filter tasks = .ok res) :
    (∀ (arn : String) (g : HostGroup) (hp : Nat) (e : PortEntry),
      mapGet res arn = some g → (hp, e) ∈ g.byHostPort →
        ∃ t ∈ tasks, ∃ (j : Nat) (c : Container) (ov : ContainerOverride)
          (bs : List NetworkBinding) (b : NetworkBinding),
          t.containers[j]? = some c ∧
          t.containerOverrides[j]? = some ov ∧
          c.networkBindings = some bs ∧ b ∈ bs ∧
          retainBinding filter b.containerPort = true ∧
          arn = t.containerInstanceArn ∧ e.containerName = ov.name ∧
          e.containerPort = b.containerPort ∧ hp = b.hostPort) ∧
    exceptIsOk (aggregateTasks none [taskC9]) = true ∧
    taskC9.containers.length ≠ taskC9.containerOverrides.length := by
  refine ⟨?_, rfl, by decide⟩
  rw [aggregateTasks_eq] at hagg
  cases hall : allTriples filter tasks with
  | error e => rw [hall] at hagg; simp [Except.map] at hagg
  | ok l =>
      rw [hall] at hagg
      simp only [Except.map] at hagg
      injection hagg with hres
      subst hres
      intro arn g hp e hget hmem
      rcases (buildGroups_prov l arn g hget).2 (hp, e) hmem with
        ⟨x, hx, hx1, hxn, hxc, hxh⟩
      rcases mem_allTriples filter tasks l x hall hx with
        ⟨t, ht, l', hl', hx'⟩
      rcases mem_containersTriples filter t.containerInstanceArn
          t.containerOverrides t.containers 0 l' x hl' hx' with
        ⟨i, c, ov, bs, b, hc, hov, hnb, hb, hret, hxeq⟩
      rw [Nat.zero_add] at hov
      subst hxeq
      refine ⟨t, ht, i, c, ov, bs, b, hc, hov, hnb, hb, hret,
        hx1.symm, hxn.symm, hxc.symm, hxh.symm⟩

/-- C9 witness: `taskC9` (one container, two overrides) aggregates
without error despite the length mismatch. -/
theorem claim_c9_witness :
    exceptIsOk (aggregateTasks none [taskC9]) = true ∧
      taskC9.containers.length ≠ taskC9.containerOverrides.length :=
  ⟨(claim_c9_positional_names none [taskC9] resC9 rfl).2.1,
   (claim_c9_positional_names none [taskC9] resC9 rfl).2.2⟩
